import Mathlib

/-!
# Verification of the jsonrpc-reactor codec and reactor

Shallow embedding of the `jsonrpc-reactor` crate (files `src/lib.rs`,
`src/impls.rs`, `src/reactor.rs`).

JSON documents are modelled by `JsonRpc.Value`, mirroring `serde_json::Value`:
objects are association lists in insertion order (lookup is first match, and
every map built by the code has distinct keys, so the list model agrees with
the map), and numbers mirror the three internal representations of
`serde_json::Number` (unsigned integer, negative integer, floating point).
A floating-point number is carried as an inert bit-pattern payload: the only
operation the code applies to it, `as_i64`, returns `None` for every float,
so no floating-point arithmetic is needed.

Machine integers (`i64`) are modelled as `Int` together with explicit range
bounds `-2^63 ≤ n < 2^63` where constructibility matters; wrapping addition
is modelled by reduction modulo `2^64` written with explicit numerals.

The reactor's `request_with_id` is embedded as a pure function over an
explicit pending-table state; the effects of the tokio channels and of
`Instant::now()` are passed in as parameters (`sent` says whether the
outbound enqueue succeeded; `nowMoment` and `nowSweep` are the two clock
readings the function takes).
-/

namespace JsonRpc

/-- Model of `serde_json::Number`: a `u64` payload, an `i64` negative payload,
or an `f64` payload (carried as an inert bit pattern). -/
inductive JNumber where
  | posInt (n : Nat)
  | negInt (n : Int)
  | float (bits : Nat)
deriving DecidableEq, Repr

/-- `Number::as_i64`: a non-negative integer payload converts when it fits in
`i64` (that is, when it is at most `2^63 - 1`); a negative integer payload
always converts; a float payload never converts. -/
def JNumber.asI64 : JNumber → Option Int
  | .posInt n => if n ≤ 9223372036854775807 then some (n : Int) else none
  | .negInt n => some n
  | .float _ => none

/-- `serde_json::Number: From<i64>`: a non-negative `i64` is stored as an
unsigned payload, a negative one as a negative payload. -/
def JNumber.fromI64 (n : Int) : JNumber :=
  if 0 ≤ n then .posInt n.toNat else .negInt n

/-- Model of `serde_json::Value`. Objects are association lists of
(key, value) pairs in insertion order. -/
inductive Value where
  | null
  | bool (b : Bool)
  | num (n : JNumber)
  | str (s : String)
  | arr (elems : List Value)
  | obj (entries : List (String × Value))

/-- First-match association-list lookup, modelling `Map::get`. -/
def mapGet (m : List (String × Value)) (k : String) : Option Value :=
  match m with
  | [] => none
  | (k1, v) :: rest => if k1 = k then some v else mapGet rest k

/-- `Value::as_str`. -/
def Value.asStr : Value → Option String
  | .str s => some s
  | _ => none

/-- `Value::as_object`. -/
def Value.asObject : Value → Option (List (String × Value))
  | .obj m => some m
  | _ => none

/-- `Value::as_i64`. -/
def Value.asI64 : Value → Option Int
  | .num n => n.asI64
  | _ => none

/-- `Value::is_null`. -/
def Value.isNull : Value → Bool
  | .null => true
  | _ => false

/-- The decode-failure taxonomy `Error` of `src/lib.rs`. -/
inductive Error where
  | UnexpectedIdVariant
  | UnexpectedParamsVariant
  | UnexpectedRequestVariant
  | InvalidNumberCast
  | JsonRpcVersionNotFound
  | InvalidJsonRpcVersion
  | ExpectedId
  | ExpectedMethod
  | InvalidMethodVariant
  | UnexpectedNotificationVariant
  | UnexpectedErrorVariant
  | ExpectedErrorCode
  | ExpectedErrorCodeAsInteger
  | ExpectedErrorMessage
  | ExpectedErrorCodeAsString
  | UnexpectedResponseVariant
  | ResponseExpectsResultOrError
deriving DecidableEq, Repr

/-- `Id` from `src/lib.rs`: a string or an `i64` number. -/
inductive Id where
  | String (s : String)
  | Number (n : Int)
deriving DecidableEq, Repr

/-- The values an `Id` constructible in the source can take: the number
variant carries an `i64`. -/
def Id.valid : Id → Prop
  | .String _ => True
  | .Number n => -9223372036854775808 ≤ n ∧ n < 9223372036854775808

instance : DecidablePred Id.valid := fun i =>
  match i with
  | .String _ => Decidable.isTrue trivial
  | .Number _ => inferInstanceAs (Decidable (_ ∧ _))

/-- `Params` from `src/lib.rs`. -/
inductive Params where
  | Array (a : List Value)
  | Object (m : List (String × Value))
  | Null

/-- `Request` from `src/lib.rs`. -/
structure Request where
  id : Id
  method : String
  params : Params

/-- `Notification` from `src/lib.rs`. -/
structure Notification where
  method : String
  params : Params

/-- `RpcError` from `src/lib.rs`; `code` is an `i64`. -/
structure RpcError where
  code : Int
  message : String
  data : Value

/-- The values an `RpcError` constructible in the source can take: `code` is
an `i64`. -/
def RpcError.valid (e : RpcError) : Prop :=
  -9223372036854775808 ≤ e.code ∧ e.code < 9223372036854775808

instance : DecidablePred RpcError.valid := fun _ =>
  inferInstanceAs (Decidable (_ ∧ _))

/-- `Response` from `src/lib.rs`: `result: Result<Value, RpcError>` is
modelled with `Except`, `.ok` being the success case. -/
structure Response where
  id : Id
  result : Except RpcError Value

/-- The values a `Response` constructible in the source can take. -/
def Response.valid (r : Response) : Prop :=
  r.id.valid ∧ match r.result with
    | .ok _ => True
    | .error e => e.valid

/-- `From<Id> for Value` (impls.rs lines 20-27). -/
def Value.fromId : Id → Value
  | .String s => .str s
  | .Number n => .num (JNumber.fromI64 n)

/-- `TryFrom<Value> for Id` (impls.rs lines 50-62). -/
def Id.tryFrom : Value → Except Error Id
  | .num n =>
    match n.asI64 with
    | some k => .ok (.Number k)
    | none => .error .InvalidNumberCast
  | .str s => .ok (.String s)
  | .null | .arr _ | .obj _ | .bool _ => .error .UnexpectedIdVariant

/-- `From<Params> for Value` (impls.rs lines 112-120). -/
def Value.fromParams : Params → Value
  | .Array a => .arr a
  | .Object m => .obj m
  | .Null => .null

/-- `TryFrom<Value> for Params` (impls.rs lines 156-170). -/
def Params.tryFrom : Value → Except Error Params
  | .null => .ok .Null
  | .arr a => .ok (.Array a)
  | .obj o => .ok (.Object o)
  | .bool _ | .num _ | .str _ => .error .UnexpectedParamsVariant

/-- The shared `jsonrpc` version check of the Request/Notification/Response
decoders (e.g. impls.rs lines 233-237): the key must be present
(`JsonRpcVersionNotFound` otherwise) and its value must be the string
`"2.0"` (`InvalidJsonRpcVersion` otherwise, also when it is not a string). -/
def checkVersion (m : List (String × Value)) : Except Error Unit :=
  match mapGet m "jsonrpc" with
  | none => .error .JsonRpcVersionNotFound
  | some v =>
    match v.asStr with
    | none => .error .InvalidJsonRpcVersion
    | some s => if s = "2.0" then .ok () else .error .InvalidJsonRpcVersion

/-- The shared `id` extraction of the Request/Response decoders
(impls.rs line 239 and line 490): key required (`ExpectedId` otherwise),
then converted per `TryFrom<&Value> for Id`. -/
def getId (m : List (String × Value)) : Except Error Id :=
  match mapGet m "id" with
  | none => .error .ExpectedId
  | some v => Id.tryFrom v

/-- The shared `method` extraction of the Request/Notification decoders
(impls.rs lines 241-246): key required (`ExpectedMethod` otherwise) and its
value must be a string (`InvalidMethodVariant` otherwise). -/
def getMethod (m : List (String × Value)) : Except Error String :=
  match mapGet m "method" with
  | none => .error .ExpectedMethod
  | some v =>
    match v.asStr with
    | none => .error .InvalidMethodVariant
    | some s => .ok s

/-- `From<Request> for Value` (impls.rs lines 206-225): emit `jsonrpc`,
`method`, then `params` only when its JSON form is not null, then `id`. -/
def Value.fromRequest (r : Request) : Value :=
  let params := Value.fromParams r.params
  .obj ([("jsonrpc", Value.str "2.0"), ("method", Value.str r.method)]
    ++ (if params.isNull then [] else [("params", params)])
    ++ [("id", Value.fromId r.id)])

/-- `TryFrom<&Value> for Request` (impls.rs lines 227-252): object required
(`UnexpectedRequestVariant`), version check, `id`, `method`, then `params`
defaulting to JSON null when the key is absent. -/
def Request.tryFrom (v : Value) : Except Error Request :=
  match v.asObject with
  | none => .error .UnexpectedRequestVariant
  | some m =>
    match checkVersion m with
    | .error e => .error e
    | .ok _ =>
      match getId m with
      | .error e => .error e
      | .ok id =>
        match getMethod m with
        | .error e => .error e
        | .ok method =>
          match Params.tryFrom ((mapGet m "params").getD .null) with
          | .error e => .error e
          | .ok params => .ok ⟨id, method, params⟩

/-- `From<Notification> for Value` (impls.rs lines 254-267): the `json!`
document always carries the `params` key, even when its value is null. -/
def Value.fromNotification (nt : Notification) : Value :=
  .obj [("jsonrpc", Value.str "2.0"), ("method", Value.str nt.method),
    ("params", Value.fromParams nt.params)]

/-- `TryFrom<&Value> for Notification` (impls.rs lines 269-292): same checks
as the Request decoder, minus `id`; a non-object still fails with
`UnexpectedRequestVariant` (line 273). -/
def Notification.tryFrom (v : Value) : Except Error Notification :=
  match v.asObject with
  | none => .error .UnexpectedRequestVariant
  | some m =>
    match checkVersion m with
    | .error e => .error e
    | .ok _ =>
      match getMethod m with
      | .error e => .error e
      | .ok method =>
        match Params.tryFrom ((mapGet m "params").getD .null) with
        | .error e => .error e
        | .ok params => .ok ⟨method, params⟩

/-- `From<RpcError> for Value` (impls.rs lines 303-311): always emits
`code`, `message` and `data`. -/
def Value.fromRpcError (e : RpcError) : Value :=
  .obj [("code", Value.num (JNumber.fromI64 e.code)),
    ("message", Value.str e.message), ("data", e.data)]

/-- `TryFrom<&Value> for RpcError` (impls.rs lines 352-379): object required
(`UnexpectedErrorVariant`); `code` required (`ExpectedErrorCode`) and
`i64`-representable (`ExpectedErrorCodeAsInteger`); `message` required
(`ExpectedErrorMessage`) and a string (`ExpectedErrorCodeAsString` — the
source reuses that variant name for the `message` string check); `data`
defaults to JSON null. -/
def RpcError.tryFrom (v : Value) : Except Error RpcError :=
  match v.asObject with
  | none => .error .UnexpectedErrorVariant
  | some m =>
    match mapGet m "code" with
    | none => .error .ExpectedErrorCode
    | some cv =>
      match cv.asI64 with
      | none => .error .ExpectedErrorCodeAsInteger
      | some code =>
        match mapGet m "message" with
        | none => .error .ExpectedErrorMessage
        | some mv =>
          match mv.asStr with
          | none => .error .ExpectedErrorCodeAsString
          | some message => .ok ⟨code, message, (mapGet m "data").getD .null⟩

/-- `From<Response> for Value` (impls.rs lines 399-418): emit `jsonrpc` and
`id`, then exactly one of `result` (success) or `error` (failure, nested per
the RpcError encoder). -/
def Value.fromResponse (r : Response) : Value :=
  .obj [("jsonrpc", Value.str "2.0"), ("id", Value.fromId r.id),
    match r.result with
    | .ok v => ("result", v)
    | .error e => ("error", Value.fromRpcError e)]

/-- `TryFrom<&Value> for Response` (impls.rs lines 469-494): object required
(`UnexpectedResponseVariant`), version check, then
`map.get("error").map(RpcError::try_from).transpose()?` — so a present but
malformed `error` value aborts the decode with the RpcError decode error
before the result/error combination is examined — then the combination
(`ResponseExpectsResultOrError` unless exactly one of the keys is present),
and finally `id`. -/
def Response.tryFrom (v : Value) : Except Error Response :=
  match v.asObject with
  | none => .error .UnexpectedResponseVariant
  | some m =>
    match checkVersion m with
    | .error e => .error e
    | .ok _ =>
      match mapGet m "error" with
      | some ev =>
        match RpcError.tryFrom ev with
        | .error e => .error e
        | .ok rpcErr =>
          match mapGet m "result" with
          | some _ => .error .ResponseExpectsResultOrError
          | none =>
            match getId m with
            | .error e => .error e
            | .ok id => .ok ⟨id, .error rpcErr⟩
      | none =>
        match mapGet m "result" with
        | none => .error .ResponseExpectsResultOrError
        | some rv =>
          match getId m with
          | .error e => .error e
          | .ok id => .ok ⟨id, .ok rv⟩

/-! ## Reactor model (`src/reactor.rs`)

`Instant` and `Duration` are modelled as `Nat` (`duration_since` is then
truncated subtraction, which matches its saturation at zero). A oneshot
sender is an abstract handle (`Nat`); delivering into it is recorded in the
`delivered` output list. Channel effects are inputs: `sent` is whether the
outbound enqueue succeeded within its policy (`send` vs `send_timeout`). -/

/-- `PendingRequest` (reactor.rs lines 11-16). -/
structure PendingRequest where
  sender : Nat
  moment : Nat
  timeout : Option Nat
deriving DecidableEq, Repr

/-- The pending table `HashMap<Id, PendingRequest>`, modelled as an
association list with at most one entry per key. -/
abbrev Table := List (Id × PendingRequest)

/-- `HashMap::insert`: the new binding replaces any previous binding of the
same key. -/
def Table.insert (q : Table) (id : Id) (e : PendingRequest) : Table :=
  (id, e) :: q.filter (fun p => decide (p.1 ≠ id))

/-- Whether the sweep expires an entry (reactor.rs lines 148-155): it must
carry a timeout `t`, and the elapsed time `now - moment` must strictly
exceed `t` (`t < diff`). An entry with no timeout is never expired. -/
def expired (now : Nat) (e : PendingRequest) : Bool :=
  match e.timeout with
  | some t => decide (t < now - e.moment)
  | none => false

/-- The canonical timeout failure the sweep delivers (reactor.rs
lines 162-166). -/
def timeoutError : RpcError :=
  ⟨-1, "response timeout", Value.null⟩

/-- The expiry sweep (reactor.rs lines 146-170): every expired entry is
removed from the table and its waiter is sent `Err(timeoutError)`. -/
def sweep (now : Nat) (q : Table) : Table × List (Nat × Except RpcError Value) :=
  (q.filter (fun p => !expired now p.2),
    (q.filter (fun p => expired now p.2)).map
      (fun p => (p.2.sender, Except.error timeoutError)))

/-- The observable outcome of one `request_with_id` call: the returned
oneshot receiver (if any), the pending table afterwards, the messages
delivered into waiters by the sweep, and the request handed to the outbound
channel (if the enqueue succeeded). -/
structure ReqOutcome where
  receiver : Option Nat
  table : Table
  delivered : List (Nat × Except RpcError Value)
  outbound : Option Request

/-- `Reactor::request_with_id` (reactor.rs lines 105-174) as a state
transition. `sent` is the result of the outbound enqueue (`send` /
`send_timeout`); on failure the function returns no receiver and leaves the
table untouched. On success a fresh oneshot channel `(sender, receiver)` is
created, `{sender, nowMoment, timeout}` is inserted under `id`, and, only
when the table size now strictly exceeds `capacity`, the sweep runs at time
`nowSweep`. -/
def requestWithId (capacity : Nat) (table : Table) (id : Id) (method : String)
    (params : Params) (tmo : Option Nat) (sent : Bool)
    (sender receiver nowMoment nowSweep : Nat) : ReqOutcome :=
  if sent then
    let q := table.insert id ⟨sender, nowMoment, tmo⟩
    if capacity < q.length then
      let swept := sweep nowSweep q
      ⟨some receiver, swept.1, swept.2, some ⟨id, method, params⟩⟩
    else
      ⟨some receiver, q, [], some ⟨id, method, params⟩⟩
  else
    ⟨none, table, [], none⟩

/-- One step of the background fulfillment task (reactor.rs lines 41-49):
on a received `Response { id, result }`, remove the entry for `id` if
present and send `result` into its oneshot sender; otherwise do nothing. -/
def fulfillStep (q : Table) (resp : Response) :
    Table × Option (Nat × Except RpcError Value) :=
  match q.find? (fun p => decide (p.1 = resp.id)) with
  | some p => (q.filter (fun p2 => decide (p2.1 ≠ resp.id)),
      some (p.2.sender, resp.result))
  | none => (q, none)

/-- Reduction of an integer into the `i64` range, the value of a `u128`/`Int`
computation reinterpreted as a two's-complement 64-bit signed integer.
The numerals are `2^63` and `2^64`. -/
def i64wrap (n : Int) : Int :=
  (n + 9223372036854775808) % 18446744073709551616 - 9223372036854775808

/-- `i64::wrapping_add(1)` (reactor.rs line 99). -/
def wrappingAdd1 (n : Int) : Int :=
  i64wrap (n + 1)

/-- One `Reactor::request` call (reactor.rs lines 87-103) as seen by the
counter: it uses the current `request_id` as `Id::Number` and leaves the
counter advanced by one with wraparound. The counter advances on every
call, whether or not the enqueue inside `request_with_id` succeeds. -/
def requestStep (requestId : Int) : Id × Int :=
  (Id.Number requestId, wrappingAdd1 requestId)

/-- The counter after `n` calls to `request`; `Reactor::spawn` initialises
it to `0` (reactor.rs line 33). -/
def counterAfter : Nat → Int
  | 0 => 0
  | k + 1 => (requestStep (counterAfter k)).2

/-! ## Helper lemmas -/

theorem fromI64_asI64 (n : Int) (h1 : -9223372036854775808 ≤ n)
    (h2 : n < 9223372036854775808) : (JNumber.fromI64 n).asI64 = some n := by
  unfold JNumber.fromI64 JNumber.asI64
  by_cases h0 : 0 ≤ n
  · rw [if_pos h0]
    have hle : n.toNat ≤ 9223372036854775807 := by omega
    simp only [if_pos hle, Option.some.injEq]
    omega
  · rw [if_neg h0]

theorem id_roundtrip (i : Id) (h : i.valid) :
    Id.tryFrom (Value.fromId i) = .ok i := by
  cases i with
  | String s => rfl
  | Number n =>
    obtain ⟨h1, h2⟩ := h
    have step : Id.tryFrom (.num (JNumber.fromI64 n)) =
        match (JNumber.fromI64 n).asI64 with
        | some k => .ok (.Number k)
        | none => .error .InvalidNumberCast := rfl
    rw [show Value.fromId (.Number n) = .num (JNumber.fromI64 n) from rfl,
      step, fromI64_asI64 n h1 h2]

theorem rpcError_roundtrip (e : RpcError) (h : e.valid) :
    RpcError.tryFrom (Value.fromRpcError e) = .ok e := by
  obtain ⟨code, message, data⟩ := e
  obtain ⟨h1, h2⟩ := h
  have step : RpcError.tryFrom (Value.fromRpcError ⟨code, message, data⟩) =
      match (JNumber.fromI64 code).asI64 with
      | none => .error .ExpectedErrorCodeAsInteger
      | some c => .ok ⟨c, message, data⟩ := rfl
  rw [step, fromI64_asI64 code h1 h2]

theorem request_roundtrip (r : Request) (h : r.id.valid) :
    Request.tryFrom (Value.fromRequest r) = .ok r := by
  obtain ⟨id, method, params⟩ := r
  cases params with
  | Null =>
    have step : Request.tryFrom (Value.fromRequest ⟨id, method, .Null⟩) =
        match Id.tryFrom (Value.fromId id) with
        | .error e => .error e
        | .ok i => .ok ⟨i, method, .Null⟩ := rfl
    rw [step, id_roundtrip id h]
  | Array a =>
    have step : Request.tryFrom (Value.fromRequest ⟨id, method, .Array a⟩) =
        match Id.tryFrom (Value.fromId id) with
        | .error e => .error e
        | .ok i => .ok ⟨i, method, .Array a⟩ := rfl
    rw [step, id_roundtrip id h]
  | Object o =>
    have step : Request.tryFrom (Value.fromRequest ⟨id, method, .Object o⟩) =
        match Id.tryFrom (Value.fromId id) with
        | .error e => .error e
        | .ok i => .ok ⟨i, method, .Object o⟩ := rfl
    rw [step, id_roundtrip id h]

theorem notification_roundtrip (nt : Notification) :
    Notification.tryFrom (Value.fromNotification nt) = .ok nt := by
  obtain ⟨method, params⟩ := nt
  cases params <;> rfl

theorem response_roundtrip (r : Response) (h : r.valid) :
    Response.tryFrom (Value.fromResponse r) = .ok r := by
  obtain ⟨id, result⟩ := r
  obtain ⟨hid, hres⟩ := h
  cases result with
  | ok v =>
    have step : Response.tryFrom (Value.fromResponse ⟨id, .ok v⟩) =
        match Id.tryFrom (Value.fromId id) with
        | .error e => .error e
        | .ok i => .ok ⟨i, .ok v⟩ := rfl
    rw [step, id_roundtrip id hid]
  | error e =>
    have step : Response.tryFrom (Value.fromResponse ⟨id, .error e⟩) =
        match RpcError.tryFrom (Value.fromRpcError e) with
        | .error err => .error err
        | .ok rpcErr =>
          match Id.tryFrom (Value.fromId id) with
          | .error err => .error err
          | .ok i => .ok ⟨i, .error rpcErr⟩ := rfl
    rw [step, rpcError_roundtrip e hres, id_roundtrip id hid]

theorem mapGet_append_unknown (m : List (String × Value)) (k j : String)
    (v : Value) (h : j ≠ k) : mapGet (m ++ [(k, v)]) j = mapGet m j := by
  induction m with
  | nil =>
    simp only [List.nil_append, mapGet]
    rw [if_neg (fun hh => h hh.symm)]
  | cons p rest ih =>
    obtain ⟨k1, v1⟩ := p
    simp only [List.cons_append, mapGet, List.append_eq]
    rw [ih]

theorem checkVersion_congr (m m2 : List (String × Value))
    (h : mapGet m "jsonrpc" = mapGet m2 "jsonrpc") :
    checkVersion m = checkVersion m2 := by
  unfold checkVersion
  rw [h]

theorem getId_congr (m m2 : List (String × Value))
    (h : mapGet m "id" = mapGet m2 "id") : getId m = getId m2 := by
  unfold getId
  rw [h]

theorem getMethod_congr (m m2 : List (String × Value))
    (h : mapGet m "method" = mapGet m2 "method") : getMethod m = getMethod m2 := by
  unfold getMethod
  rw [h]

theorem request_tryFrom_congr (m m2 : List (String × Value))
    (h1 : mapGet m "jsonrpc" = mapGet m2 "jsonrpc")
    (h2 : mapGet m "id" = mapGet m2 "id")
    (h3 : mapGet m "method" = mapGet m2 "method")
    (h4 : mapGet m "params" = mapGet m2 "params") :
    Request.tryFrom (.obj m) = Request.tryFrom (.obj m2) := by
  simp only [Request.tryFrom, Value.asObject]
  rw [checkVersion_congr m m2 h1, getId_congr m m2 h2,
    getMethod_congr m m2 h3, h4]

theorem notification_tryFrom_congr (m m2 : List (String × Value))
    (h1 : mapGet m "jsonrpc" = mapGet m2 "jsonrpc")
    (h3 : mapGet m "method" = mapGet m2 "method")
    (h4 : mapGet m "params" = mapGet m2 "params") :
    Notification.tryFrom (.obj m) = Notification.tryFrom (.obj m2) := by
  simp only [Notification.tryFrom, Value.asObject]
  rw [checkVersion_congr m m2 h1, getMethod_congr m m2 h3, h4]

theorem find_entry_of_mem (q : Table) (i : Id) (e : PendingRequest)
    (hmem : (i, e) ∈ q) (hnd : (q.map Prod.fst).Nodup) :
    q.find? (fun p => decide (p.1 = i)) = some (i, e) := by
  induction q with
  | nil => cases hmem
  | cons a rest ih =>
    rw [List.map_cons, List.nodup_cons] at hnd
    rcases List.mem_cons.mp hmem with heq | hmem2
    · rw [← heq]
      exact List.find?_cons_of_pos _ (by simp)
    · have hne : a.1 ≠ i := by
        intro hcontra
        exact hnd.1 (hcontra ▸ List.mem_map_of_mem Prod.fst hmem2)
      rw [List.find?_cons_of_neg _ (by simp [hne])]
      exact ih hmem2 hnd.2

theorem counterAfter_eq (n : Nat) : counterAfter n = i64wrap n := by
  induction n with
  | zero =>
    show (0 : Int) = i64wrap 0
    unfold i64wrap
    omega
  | succ k ih =>
    show wrappingAdd1 (counterAfter k) = i64wrap (k + 1 : Nat)
    rw [ih]
    unfold wrappingAdd1 i64wrap
    push_cast
    omega

/-! ## Claims -/

/-- C1: for every constructible `Request`, `Notification`, `Response` and
`RpcError` value (constructible meaning every embedded `i64` field — a
numeric `Id`, an error `code` — lies in the `i64` range), encoding it to a
JSON value and then decoding that JSON value succeeds and yields the
original value back. -/
theorem encode_decode_roundtrip :
    (∀ r : Request, r.id.valid →
      Request.tryFrom (Value.fromRequest r) = .ok r) ∧
    (∀ nt : Notification,
      Notification.tryFrom (Value.fromNotification nt) = .ok nt) ∧
    (∀ r : Response, r.valid →
      Response.tryFrom (Value.fromResponse r) = .ok r) ∧
    (∀ e : RpcError, e.valid →
      RpcError.tryFrom (Value.fromRpcError e) = .ok e) :=
  ⟨request_roundtrip, notification_roundtrip, response_roundtrip,
    rpcError_roundtrip⟩

/-- Witness for C1 at concrete values of all four message types. -/
theorem encode_decode_roundtrip_witness :
    Request.tryFrom (Value.fromRequest ⟨.Number 5, "sum", .Null⟩) =
      .ok ⟨.Number 5, "sum", .Null⟩ ∧
    Notification.tryFrom (Value.fromNotification ⟨"ping", .Array []⟩) =
      .ok ⟨"ping", .Array []⟩ ∧
    Response.tryFrom (Value.fromResponse ⟨.String "k", .error ⟨-32600, "bad", .null⟩⟩) =
      .ok ⟨.String "k", .error ⟨-32600, "bad", .null⟩⟩ ∧
    RpcError.tryFrom (Value.fromRpcError ⟨-1, "response timeout", .null⟩) =
      .ok ⟨-1, "response timeout", .null⟩ :=
  ⟨encode_decode_roundtrip.1 _ (by decide),
    encode_decode_roundtrip.2.1 _,
    encode_decode_roundtrip.2.2.1 _ ⟨trivial, by decide⟩,
    encode_decode_roundtrip.2.2.2 _ (by decide)⟩

/-- C3: a `request_with_id` call whose outbound enqueue fails returns no
receiver, leaves the pending table exactly as it was, delivers nothing, and
hands nothing to the transport. -/
theorem failed_enqueue_leaves_table_unchanged (capacity : Nat) (table : Table)
    (id : Id) (method : String) (params : Params) (tmo : Option Nat)
    (sender receiver nowMoment nowSweep : Nat) :
    requestWithId capacity table id method params tmo false
      sender receiver nowMoment nowSweep = ⟨none, table, [], none⟩ := rfl

/-- C6: encoding a `Request` whose params is the null variant yields an
object with no `params` key at all, while encoding any `Notification`
always yields an object with a `params` key, its value being the JSON form
of the params (JSON null for the null variant). -/
theorem params_key_asymmetry :
    (∀ (id : Id) (method : String) (entries : List (String × Value)),
      (Value.fromRequest ⟨id, method, .Null⟩).asObject = some entries →
      mapGet entries "params" = none) ∧
    (∀ (nt : Notification) (entries : List (String × Value)),
      (Value.fromNotification nt).asObject = some entries →
      mapGet entries "params" = some (Value.fromParams nt.params)) := by
  constructor
  · intro id method entries h
    have h2 : some [("jsonrpc", Value.str "2.0"), ("method", Value.str method),
        ("id", Value.fromId id)] = some entries := h
    rw [← Option.some.inj h2]
    rfl
  · intro nt entries h
    have h2 : some [("jsonrpc", Value.str "2.0"), ("method", Value.str nt.method),
        ("params", Value.fromParams nt.params)] = some entries := h
    rw [← Option.some.inj h2]
    rfl

/-- Witness for C6: a request and a notification, both with null params. -/
theorem params_key_asymmetry_witness :
    mapGet [("jsonrpc", Value.str "2.0"), ("method", Value.str "m"),
      ("id", Value.fromId (.Number 0))] "params" = none ∧
    mapGet [("jsonrpc", Value.str "2.0"), ("method", Value.str "m"),
      ("params", Value.fromParams .Null)] "params" =
      some (Value.fromParams Params.Null) :=
  ⟨params_key_asymmetry.1 (.Number 0) "m" _ rfl,
    params_key_asymmetry.2 ⟨"m", .Null⟩ _ rfl⟩

/-- C7: converting a JSON value to an `Id` yields `Id::Number(n)` for a JSON
number whose `as_i64` view exists, `InvalidNumberCast` for a JSON number
with no `as_i64` view (for instance a float such as 3.5), `Id::String(s)`
for a JSON string, and `UnexpectedIdVariant` for null, booleans, arrays and
objects. -/
theorem id_decode_cases :
    (∀ (n : JNumber) (k : Int), n.asI64 = some k →
      Id.tryFrom (.num n) = .ok (.Number k)) ∧
    (∀ n : JNumber, n.asI64 = none →
      Id.tryFrom (.num n) = .error .InvalidNumberCast) ∧
    (∀ s : String, Id.tryFrom (.str s) = .ok (.String s)) ∧
    Id.tryFrom .null = .error .UnexpectedIdVariant ∧
    (∀ b : Bool, Id.tryFrom (.bool b) = .error .UnexpectedIdVariant) ∧
    (∀ a : List Value, Id.tryFrom (.arr a) = .error .UnexpectedIdVariant) ∧
    (∀ m : List (String × Value),
      Id.tryFrom (.obj m) = .error .UnexpectedIdVariant) := by
  refine ⟨?_, ?_, fun s => rfl, rfl, fun b => rfl, fun a => rfl, fun m => rfl⟩
  · intro n k h
    have step : Id.tryFrom (.num n) =
        match n.asI64 with
        | some k2 => .ok (.Number k2)
        | none => .error .InvalidNumberCast := rfl
    rw [step, h]
  · intro n h
    have step : Id.tryFrom (.num n) =
        match n.asI64 with
        | some k2 => .ok (.Number k2)
        | none => .error .InvalidNumberCast := rfl
    rw [step, h]

/-- Witness for C7: the number 42 converts, a float payload (such as the
literal 3.5) does not. -/
theorem id_decode_cases_witness :
    Id.tryFrom (.num (.posInt 42)) = .ok (.Number 42) ∧
    Id.tryFrom (.num (.float 3)) = .error .InvalidNumberCast :=
  ⟨id_decode_cases.1 (.posInt 42) 42 (by decide),
    id_decode_cases.2.1 (.float 3) rfl⟩

/-- C9: the request-id counter starts at zero at construction, each
`request` call uses the current counter value as `Id::Number` and advances
it by one with two's-complement wraparound on 64-bit signed overflow, so
the n-th call (counting every call, 0-indexed, whether or not its enqueue
succeeds) passes the wrap of n into `request_with_id`. The last conjunct
states that the advanced value is the `i64` reduction of the successor:
in range and congruent to it modulo `2^64`. -/
theorem request_id_counter :
    counterAfter 0 = 0 ∧
    (∀ n : Nat, (requestStep (counterAfter n)).1 = Id.Number (i64wrap n)) ∧
    (∀ c : Int, -9223372036854775808 ≤ (requestStep c).2 ∧
      (requestStep c).2 < 9223372036854775808 ∧
      ((requestStep c).2 - (c + 1)) % 18446744073709551616 = 0) := by
  refine ⟨rfl, ?_, ?_⟩
  · intro n
    show Id.Number (counterAfter n) = Id.Number (i64wrap n)
    rw [counterAfter_eq]
  · intro c
    simp only [requestStep, wrappingAdd1, i64wrap]
    refine ⟨?_, ?_, ?_⟩ <;> omega

theorem requestWithId_sent_true (capacity : Nat) (table : Table) (id : Id)
    (method : String) (params : Params) (tmo : Option Nat)
    (sender receiver nowMoment nowSweep : Nat) :
    requestWithId capacity table id method params tmo true
        sender receiver nowMoment nowSweep =
      if capacity < (table.insert id ⟨sender, nowMoment, tmo⟩).length then
        ⟨some receiver,
          (sweep nowSweep (table.insert id ⟨sender, nowMoment, tmo⟩)).1,
          (sweep nowSweep (table.insert id ⟨sender, nowMoment, tmo⟩)).2,
          some ⟨id, method, params⟩⟩
      else
        ⟨some receiver, table.insert id ⟨sender, nowMoment, tmo⟩, [],
          some ⟨id, method, params⟩⟩ := rfl

/-- C2: after a successful enqueue, the new entry is inserted and the sweep
runs exactly when the table size then strictly exceeds the capacity; the
sweep keeps exactly the non-expired entries, delivers the canonical
`RpcError { code := -1, message := "response timeout", data := null }`
failure to every removed waiter, an entry is expired exactly when it
carries a timeout strictly smaller than its elapsed time, and entries with
no timeout are never removed. -/
theorem sweep_trigger_and_semantics (capacity : Nat) (table : Table) (id : Id)
    (method : String) (params : Params) (tmo : Option Nat)
    (sender receiver nowMoment nowSweep : Nat) :
    (capacity < (table.insert id ⟨sender, nowMoment, tmo⟩).length →
      requestWithId capacity table id method params tmo true
          sender receiver nowMoment nowSweep =
        ⟨some receiver,
          (table.insert id ⟨sender, nowMoment, tmo⟩).filter
            (fun p => !expired nowSweep p.2),
          ((table.insert id ⟨sender, nowMoment, tmo⟩).filter
            (fun p => expired nowSweep p.2)).map
            (fun p => (p.2.sender, Except.error ⟨-1, "response timeout", Value.null⟩)),
          some ⟨id, method, params⟩⟩) ∧
    (¬ capacity < (table.insert id ⟨sender, nowMoment, tmo⟩).length →
      requestWithId capacity table id method params tmo true
          sender receiver nowMoment nowSweep =
        ⟨some receiver, table.insert id ⟨sender, nowMoment, tmo⟩, [],
          some ⟨id, method, params⟩⟩) ∧
    (∀ e : PendingRequest, expired nowSweep e = true ↔
      ∃ t, e.timeout = some t ∧ t < nowSweep - e.moment) ∧
    (∀ p : Id × PendingRequest, p ∈ table.insert id ⟨sender, nowMoment, tmo⟩ →
      p.2.timeout = none →
      p ∈ (requestWithId capacity table id method params tmo true
        sender receiver nowMoment nowSweep).table) := by
  refine ⟨?_, ?_, ?_, ?_⟩
  · intro h
    rw [requestWithId_sent_true, if_pos h]
    simp only [sweep, timeoutError]
  · intro h
    rw [requestWithId_sent_true, if_neg h]
  · intro e
    obtain ⟨s, mo, t⟩ := e
    cases t with
    | none => simp [expired]
    | some tv => simp [expired]
  · intro p hp ht
    by_cases h : capacity < (table.insert id ⟨sender, nowMoment, tmo⟩).length
    · rw [requestWithId_sent_true, if_pos h]
      simp only [sweep]
      exact List.mem_filter.mpr ⟨hp, by simp [expired, ht]⟩
    · rw [requestWithId_sent_true, if_neg h]
      exact hp

/-- Witness for C2: capacity 0, empty table; inserting one entry with
timeout 1 registered at time 0 triggers the sweep at time 5 and expires
that entry. -/
theorem sweep_trigger_and_semantics_witness :
    requestWithId 0 [] (.Number 0) "m" .Null (some 1) true 3 4 0 5 =
      ⟨some 4,
        (Table.insert [] (.Number 0) ⟨3, 0, some 1⟩).filter
          (fun p => !expired 5 p.2),
        ((Table.insert [] (.Number 0) ⟨3, 0, some 1⟩).filter
          (fun p => expired 5 p.2)).map
          (fun p => (p.2.sender, Except.error ⟨-1, "response timeout", Value.null⟩)),
        some ⟨.Number 0, "m", .Null⟩⟩ :=
  (sweep_trigger_and_semantics 0 [] (.Number 0) "m" .Null (some 1) 3 4 0 5).1
    (by decide)

/-- C4: one step of the background fulfillment task on a received response:
if the table holds an entry for the response id (the table having at most
one entry per id), exactly that entry is removed — every other entry is
kept unchanged — and its sender receives the response outcome; if no entry
matches, the table is unchanged and nothing is delivered. -/
theorem fulfill_step_frame (q : Table) (resp : Response) :
    (∀ e : PendingRequest, (resp.id, e) ∈ q → (q.map Prod.fst).Nodup →
      fulfillStep q resp = (q.filter (fun p => decide (p.1 ≠ resp.id)),
        some (e.sender, resp.result)) ∧
      (∀ p : Id × PendingRequest,
        p ∈ (fulfillStep q resp).1 ↔ p ∈ q ∧ p.1 ≠ resp.id)) ∧
    ((∀ p ∈ q, p.1 ≠ resp.id) → fulfillStep q resp = (q, none)) := by
  constructor
  · intro e hm hnd
    have heq : fulfillStep q resp = (q.filter (fun p => decide (p.1 ≠ resp.id)),
        some (e.sender, resp.result)) := by
      unfold fulfillStep
      rw [find_entry_of_mem q resp.id e hm hnd]
    refine ⟨heq, fun p => ?_⟩
    rw [heq]
    simp [List.mem_filter]
  · intro hall
    have hfind : q.find? (fun p => decide (p.1 = resp.id)) = none := by
      rw [List.find?_eq_none]
      intro p hp
      simp [hall p hp]
    unfold fulfillStep
    rw [hfind]

/-- Witness for C4: two pending entries; a response for id 2 removes exactly
that entry and delivers the outcome to its sender. -/
theorem fulfill_step_frame_witness :
    fulfillStep [(.Number 1, ⟨10, 0, none⟩), (.Number 2, ⟨11, 0, none⟩)]
        ⟨.Number 2, .ok .null⟩ =
      ([(.Number 1, ⟨10, 0, none⟩), (.Number 2, ⟨11, 0, none⟩)].filter
        (fun p => decide (p.1 ≠ Id.Number 2)), some (11, .ok .null)) :=
  ((fulfill_step_frame [(.Number 1, ⟨10, 0, none⟩), (.Number 2, ⟨11, 0, none⟩)]
    ⟨.Number 2, .ok .null⟩).1 ⟨11, 0, none⟩ (by decide) (by decide)).1

/-- A well-formed response document carrying both `result` and `error`,
where the `error` value is not an object. -/
def responseBothKeys : List (String × Value) :=
  [("jsonrpc", .str "2.0"), ("id", .num (.posInt 1)),
    ("result", .null), ("error", .bool true)]

/-- C5 counterexample: a JSON object carrying jsonrpc "2.0" with both
`result` and `error` present for which decode does NOT fail with
`ResponseExpectsResultOrError`: the `error` value is malformed, and the code
propagates the RpcError decode failure (`UnexpectedErrorVariant`) before it
ever examines the result/error combination. -/
theorem response_exclusivity_cex :
    mapGet responseBothKeys "jsonrpc" = some (Value.str "2.0") ∧
    (mapGet responseBothKeys "result").isSome = true ∧
    (mapGet responseBothKeys "error").isSome = true ∧
    Response.tryFrom (Value.obj responseBothKeys) =
      .error .UnexpectedErrorVariant ∧
    Response.tryFrom (Value.obj responseBothKeys) ≠
      .error .ResponseExpectsResultOrError := by
  refine ⟨rfl, rfl, rfl, rfl, fun hcontra => ?_⟩
  have heq : Error.UnexpectedErrorVariant = Error.ResponseExpectsResultOrError :=
    Except.error.inj ((show Response.tryFrom (Value.obj responseBothKeys) =
      .error .UnexpectedErrorVariant from rfl).symm.trans hcontra)
  exact absurd heq (by decide)

/-- C5 amended: for every JSON object carrying jsonrpc "2.0", Response
decode yields `id`-decode composed with a success outcome when `result` is
present and `error` absent, yields `id`-decode composed with a failure
outcome when `error` is present and decodes as an RpcError and `result` is
absent, fails with `ResponseExpectsResultOrError` when neither key is
present or when both are present and the error value decodes as an
RpcError, and fails with the RpcError decode error whenever `error` is
present but malformed. -/
theorem response_exclusivity_amended (m : List (String × Value))
    (hv : mapGet m "jsonrpc" = some (Value.str "2.0")) :
    (mapGet m "result" = none → mapGet m "error" = none →
      Response.tryFrom (.obj m) = .error .ResponseExpectsResultOrError) ∧
    (∀ rv ev err, mapGet m "result" = some rv → mapGet m "error" = some ev →
      RpcError.tryFrom ev = .ok err →
      Response.tryFrom (.obj m) = .error .ResponseExpectsResultOrError) ∧
    (∀ ev e, mapGet m "error" = some ev → RpcError.tryFrom ev = .error e →
      Response.tryFrom (.obj m) = .error e) ∧
    (∀ rv, mapGet m "result" = some rv → mapGet m "error" = none →
      Response.tryFrom (.obj m) = (getId m).map (fun id => ⟨id, .ok rv⟩)) ∧
    (∀ ev err, mapGet m "result" = none → mapGet m "error" = some ev →
      RpcError.tryFrom ev = .ok err →
      Response.tryFrom (.obj m) = (getId m).map (fun id => ⟨id, .error err⟩)) := by
  have hver : checkVersion m = .ok () := by
    unfold checkVersion
    rw [hv]
    rfl
  refine ⟨?_, ?_, ?_, ?_, ?_⟩
  · intro hr he
    simp only [Response.tryFrom, Value.asObject, hver, he, hr]
  · intro rv ev err hr he hok
    simp only [Response.tryFrom, Value.asObject, hver, he, hok, hr]
  · intro ev e he herr
    simp only [Response.tryFrom, Value.asObject, hver, he, herr]
  · intro rv hr he
    simp only [Response.tryFrom, Value.asObject, hver, he, hr]
    cases hgid : getId m <;> simp [Except.map]
  · intro ev err hr he hok
    simp only [Response.tryFrom, Value.asObject, hver, he, hok, hr]
    cases hgid : getId m <;> simp [Except.map]

/-- Witness for C5 amended: an object with jsonrpc "2.0" and neither
`result` nor `error` fails with `ResponseExpectsResultOrError`. -/
theorem response_exclusivity_amended_witness :
    Response.tryFrom (Value.obj [("jsonrpc", Value.str "2.0")]) =
      .error .ResponseExpectsResultOrError :=
  (response_exclusivity_amended [("jsonrpc", Value.str "2.0")] rfl).1 rfl rfl

/-- C8: RpcError decode on any JSON value, following the source's check
order: non-objects fail with `UnexpectedErrorVariant`; a missing `code`
gives `ExpectedErrorCode` and a non-integer `code` gives
`ExpectedErrorCodeAsInteger`; then a missing `message` gives
`ExpectedErrorMessage` and a non-string `message` gives
`ExpectedErrorCodeAsString`; and with both fields valid a missing `data`
defaults to JSON null in a successful decode. -/
theorem rpc_error_decode_cases :
    (∀ v : Value, v.asObject = none →
      RpcError.tryFrom v = .error .UnexpectedErrorVariant) ∧
    (∀ m : List (String × Value), mapGet m "code" = none →
      RpcError.tryFrom (.obj m) = .error .ExpectedErrorCode) ∧
    (∀ (m : List (String × Value)) (cv : Value),
      mapGet m "code" = some cv → cv.asI64 = none →
      RpcError.tryFrom (.obj m) = .error .ExpectedErrorCodeAsInteger) ∧
    (∀ (m : List (String × Value)) (cv : Value) (c : Int),
      mapGet m "code" = some cv → cv.asI64 = some c →
      mapGet m "message" = none →
      RpcError.tryFrom (.obj m) = .error .ExpectedErrorMessage) ∧
    (∀ (m : List (String × Value)) (cv : Value) (c : Int) (mv : Value),
      mapGet m "code" = some cv → cv.asI64 = some c →
      mapGet m "message" = some mv → mv.asStr = none →
      RpcError.tryFrom (.obj m) = .error .ExpectedErrorCodeAsString) ∧
    (∀ (m : List (String × Value)) (cv : Value) (c : Int) (mv : Value) (s : String),
      mapGet m "code" = some cv → cv.asI64 = some c →
      mapGet m "message" = some mv → mv.asStr = some s →
      mapGet m "data" = none →
      RpcError.tryFrom (.obj m) = .ok ⟨c, s, .null⟩) := by
  refine ⟨?_, ?_, ?_, ?_, ?_, ?_⟩
  · intro v h
    cases v with
    | null => rfl
    | bool b => rfl
    | num n => rfl
    | str s => rfl
    | arr a => rfl
    | obj entries => exact Option.noConfusion h
  · intro m hc
    simp only [RpcError.tryFrom, Value.asObject, hc]
  · intro m cv hc hi
    simp only [RpcError.tryFrom, Value.asObject, hc, hi]
  · intro m cv c hc hi hm
    simp only [RpcError.tryFrom, Value.asObject, hc, hi, hm]
  · intro m cv c mv hc hi hm hs
    simp only [RpcError.tryFrom, Value.asObject, hc, hi, hm, hs]
  · intro m cv c mv s hc hi hm hs hd
    simp only [RpcError.tryFrom, Value.asObject, hc, hi, hm, hs, hd, Option.getD_none]

/-- Witness for C8: an object with integer `code`, string `message` and no
`data` decodes with `data = null`. -/
theorem rpc_error_decode_cases_witness :
    RpcError.tryFrom (.obj [("code", Value.num (.posInt 7)),
        ("message", Value.str "x")]) = .ok ⟨7, "x", .null⟩ :=
  rpc_error_decode_cases.2.2.2.2.2 [("code", Value.num (.posInt 7)),
    ("message", Value.str "x")] (Value.num (.posInt 7)) 7 (Value.str "x") "x"
    rfl rfl rfl rfl rfl

/-- C10: both object decoders consult only their recognised keys, so
appending a pair with any other key to an object leaves the decode result
unchanged; in particular an object with jsonrpc "2.0", a string method and
an extra `id` key still decodes as a Notification, the `id` being
ignored. -/
theorem unknown_keys_ignored :
    (∀ (m : List (String × Value)) (k : String) (v : Value),
      k ≠ "jsonrpc" → k ≠ "id" → k ≠ "method" → k ≠ "params" →
      Request.tryFrom (.obj (m ++ [(k, v)])) = Request.tryFrom (.obj m)) ∧
    (∀ (m : List (String × Value)) (k : String) (v : Value),
      k ≠ "jsonrpc" → k ≠ "method" → k ≠ "params" →
      Notification.tryFrom (.obj (m ++ [(k, v)])) = Notification.tryFrom (.obj m)) ∧
    Notification.tryFrom (.obj [("jsonrpc", .str "2.0"), ("method", .str "m"),
      ("id", .num (.posInt 1))]) = .ok ⟨"m", .Null⟩ := by
  refine ⟨?_, ?_, rfl⟩
  · intro m k v h1 h2 h3 h4
    exact request_tryFrom_congr _ _
      (mapGet_append_unknown m k "jsonrpc" v (Ne.symm h1))
      (mapGet_append_unknown m k "id" v (Ne.symm h2))
      (mapGet_append_unknown m k "method" v (Ne.symm h3))
      (mapGet_append_unknown m k "params" v (Ne.symm h4))
  · intro m k v h1 h3 h4
    exact notification_tryFrom_congr _ _
      (mapGet_append_unknown m k "jsonrpc" v (Ne.symm h1))
      (mapGet_append_unknown m k "method" v (Ne.symm h3))
      (mapGet_append_unknown m k "params" v (Ne.symm h4))

/-- Witness for C10: appending an `extra` key to a valid request document
leaves the decode result unchanged. -/
theorem unknown_keys_ignored_witness :
    Request.tryFrom (.obj ([("jsonrpc", Value.str "2.0"),
        ("method", Value.str "m"), ("id", Value.num (.posInt 1))] ++
        [("extra", Value.null)])) =
      Request.tryFrom (.obj [("jsonrpc", Value.str "2.0"),
        ("method", Value.str "m"), ("id", Value.num (.posInt 1))]) :=
  unknown_keys_ignored.1 [("jsonrpc", Value.str "2.0"),
    ("method", Value.str "m"), ("id", Value.num (.posInt 1))] "extra" Value.null
    (by decide) (by decide) (by decide) (by decide)

end JsonRpc
